import Mathlib

/-!
# test-stat: transcoding of test events and bulk load

A shallow embedding of `main.go`: the record type `TestResult`, the
transcoding loop (decode, stamp the provenance, encode) and the sequence of
operations `main` performs against the file system, the object store and the
warehouse.  The outside world (what the environment holds, which operation
reports an error, what the decoder finds in the input) is an explicit value of
type `World`; a run is the pure function `main` from a world to an exit status
and the trace of the operations that were invoked.

The loop sees its input as a list of units, each what `More()` and `Decode`
make of the next JSON value.  The second half of the definitions relates the
units to the bytes of the file and the written records to the bytes of the
object: a model of the decoder and the encoder of `encoding/json` for the
record type of this program, with the conversions of numbers and timestamps
left as a parameter.
-/

namespace TestStat

/-- The zero value of `time.Time`, as `encoding/json` writes it (RFC 3339). -/
def zeroTime : String := "0001-01-01T00:00:00Z"

/-- The record of `main.go`, lines 16-29.  `Time` is kept as its RFC 3339
text, `Elapsed` as the exact rational value of the `float64`. -/
structure TestResult where
  Time : String
  Action : String
  Package : String
  Test : String
  Elapsed : ℚ
  Output : String
  Repo : String
  Branch : String
  Commit : String
  Run : String
  Stage : String
  deriving DecidableEq, Repr

/-- The value of `var result TestResult` (line 64): every field zero. -/
def TestResult.zero : TestResult :=
  { Time := zeroTime, Action := "", Package := "", Test := "", Elapsed := 0, Output := "",
    Repo := "", Branch := "", Commit := "", Run := "", Stage := "" }

/-- The members of one JSON object of the input, by the field of `TestResult`
they name: `none` when the object has no such member. -/
structure Fields where
  Time : Option String := none
  Action : Option String := none
  Package : Option String := none
  Test : Option String := none
  Elapsed : Option ℚ := none
  Output : Option String := none
  Repo : Option String := none
  Branch : Option String := none
  Commit : Option String := none
  Run : Option String := none
  Stage : Option String := none
  deriving DecidableEq, Repr

/-- What the decoder finds at the next position of the input.
* `object f`: a JSON value that decodes into a `TestResult`, setting the members `f`;
* `malformed`: anything for which `jsonReader.Decode` returns an error;
* `closer`: the next non-blank byte is `]` or a closing brace, for which
  `jsonReader.More()` reports `false` although the input is not exhausted. -/
inductive InputUnit where
  | object (f : Fields)
  | malformed
  | closer
  deriving DecidableEq, Repr

/-- The call `jsonReader.Decode(&result)` on a well-formed object: the
members the object has are stored, every other field of `result` keeps the
value it had before the call. -/
def decodeInto (f : Fields) (result : TestResult) : TestResult :=
  { Time := f.Time.getD result.Time
    Action := f.Action.getD result.Action
    Package := f.Package.getD result.Package
    Test := f.Test.getD result.Test
    Elapsed := f.Elapsed.getD result.Elapsed
    Output := f.Output.getD result.Output
    Repo := f.Repo.getD result.Repo
    Branch := f.Branch.getD result.Branch
    Commit := f.Commit.getD result.Commit
    Run := f.Run.getD result.Run
    Stage := f.Stage.getD result.Stage }

/-- The nine values read from the environment, lines 32-41. -/
structure Config where
  projectId : String
  dataset : String
  table : String
  testBucket : String
  repo : String
  stage : String
  branch : String
  run : String
  commit : String
  deriving DecidableEq, Repr

/-- The function `os.Getenv`: the value of the variable, the empty string when it is not set. -/
def Getenv (environ : String → Option String) (key : String) : String :=
  (environ key).getD ""

/-- Lines 32-41 of `main`. -/
def readConfig (environ : String → Option String) : Config :=
  { projectId := Getenv environ "BIGQUERY_PROJECT"
    dataset := Getenv environ "BIGQUERY_DATASET"
    table := Getenv environ "BIGQUERY_TABLE"
    testBucket := Getenv environ "TEST_RESULTS_BUCKET"
    repo := Getenv environ "CIRCLE_REPOSITORY_URL"
    stage := Getenv environ "CIRCLE_STAGE"
    branch := Getenv environ "CIRCLE_BRANCH"
    run := Getenv environ "CIRCLE_BUILD_NUM"
    commit := Getenv environ "CIRCLE_SHA1" }

/-- Lines 75-79: the five provenance fields are assigned. -/
def stamp (c : Config) (result : TestResult) : TestResult :=
  { result with Repo := c.repo, Stage := c.stage, Run := c.run, Commit := c.commit,
                Branch := c.branch }

/-- Line 57: `fmt.Sprintf("%v/%v/%v-%v-%v", repo, branch, run, stage, commit)`. -/
def objectName (repo branch run stage commit : String) : String :=
  repo ++ "/" ++ branch ++ "/" ++ run ++ "-" ++ stage ++ "-" ++ commit

/-- Line 99: `fmt.Sprintf("gs://%v/%v", testBucket, objectName)`. -/
def gcsURI (testBucket object : String) : String :=
  "gs://" ++ testBucket ++ "/" ++ object

/-- The operations `main` invokes, in the order of the source.  The flag
`ok` is `false` when the operation reported an error. -/
inductive Event where
  | openInput (path : String) (ok : Bool)
  | newStorageClient (ok : Bool)
  | newWriter (bucket object : String)
  | decode (ok : Bool)
  | write (r : TestResult) (ok : Bool)
  | closeWriter (ok : Bool)
  | newWarehouseClient (project : String) (ok : Bool)
  | submitLoad (uri dataset table : String) (ok : Bool)
  | waitLoad (ok : Bool)
  | jobStatus (ok : Bool)
  | closeWarehouseClient
  | closeInput
  deriving DecidableEq, Repr

/-- The outside world of one run. -/
structure World where
  /-- The process environment. -/
  environ : String → Option String
  /-- The positional argument `os.Args[1]`. -/
  path : String
  /-- `os.Open` reports an error. -/
  openErr : Bool
  /-- What the decoder finds in the file, unit after unit. -/
  input : List InputUnit
  /-- `storage.NewClient` reports an error. -/
  storageClientErr : Bool
  /-- `jsonWriter.Encode` reports an error at its n-th call (counted from 0). -/
  writeErr : Nat → Bool
  /-- `w.Close()` reports an error. -/
  closeErr : Bool
  /-- `bigquery.NewClient` reports an error. -/
  warehouseClientErr : Bool
  /-- `loader.Run` reports an error. -/
  submitErr : Bool
  /-- `job.Wait` reports an error. -/
  waitErr : Bool
  /-- `status.Err()` is not nil. -/
  jobErr : Bool

/-- The loop of lines 67-87.  `result` is the one variable declared before
the loop (line 64), `n` counts the calls of `Encode` so far.  The answer is
the operations invoked and whether the loop left through `os.Exit(1)`. -/
def transcode (c : Config) (writeErr : Nat → Bool) :
    List InputUnit → TestResult → Nat → List Event × Bool
  | [], _, _ => ([], false)
  | InputUnit.closer :: _, _, _ => ([], false)
  | InputUnit.malformed :: _, _, _ => ([Event.decode false], true)
  | InputUnit.object f :: rest, result, n =>
    let result := stamp c (decodeInto f result)
    if writeErr n then
      ([Event.decode true, Event.write result false], true)
    else
      let tail := transcode c writeErr rest result (n + 1)
      (Event.decode true :: Event.write result true :: tail.1, tail.2)

/-- The end of a run: the exit status of the process and the operations it invoked. -/
structure Outcome where
  status : Nat
  trace : List Event
  deriving DecidableEq, Repr

/-- Lines 90-122: the bulk load, entered once the closure of lines 59-88 has
returned.  The answer is the exit status and the operations of this stage.  A
return from `main` runs the deferred calls (`bqClient.Close`, then
`input.Close`); `os.Exit(1)` runs none. -/
def load (w : World) (c : Config) (object : String) : Outcome :=
  if w.warehouseClientErr then
    ⟨1, [Event.newWarehouseClient c.projectId false]⟩
  else
    let uri := gcsURI c.testBucket object
    if w.submitErr then
      ⟨1, [Event.newWarehouseClient c.projectId true,
           Event.submitLoad uri c.dataset c.table false]⟩
    else if w.waitErr then
      ⟨1, [Event.newWarehouseClient c.projectId true,
           Event.submitLoad uri c.dataset c.table true, Event.waitLoad false]⟩
    else if w.jobErr then
      ⟨1, [Event.newWarehouseClient c.projectId true,
           Event.submitLoad uri c.dataset c.table true, Event.waitLoad true,
           Event.jobStatus false]⟩
    else
      ⟨0, [Event.newWarehouseClient c.projectId true,
           Event.submitLoad uri c.dataset c.table true, Event.waitLoad true,
           Event.jobStatus true, Event.closeWarehouseClient, Event.closeInput]⟩

/-- The name of the staging object of a run (line 57 on the values of lines 37-41). -/
def World.object (w : World) : String :=
  objectName (readConfig w.environ).repo (readConfig w.environ).branch
    (readConfig w.environ).run (readConfig w.environ).stage (readConfig w.environ).commit

/-- The operations of lines 43-58 when none of them fails: the file is opened,
the storage client created, the writer opened on the staging object. -/
def World.opened (w : World) : List Event :=
  [Event.openInput w.path true, Event.newStorageClient true,
   Event.newWriter (readConfig w.environ).testBucket w.object]

/-- The loop of lines 67-87 as `main` starts it: on the input of the run, with
`result` zero. -/
def World.loop (w : World) : List Event × Bool :=
  transcode (readConfig w.environ) w.writeErr w.input TestResult.zero 0

/-- The function `main` of `main.go`. -/
def main (w : World) : Outcome :=
  if w.openErr then
    ⟨1, [Event.openInput w.path false]⟩
  else if w.storageClientErr then
    ⟨1, [Event.openInput w.path true, Event.newStorageClient false]⟩
  else if w.loop.2 then
    -- `os.Exit(1)` inside the closure: the deferred `w.Close()` does not run
    ⟨1, w.opened ++ w.loop.1⟩
  else
    -- the closure returns: the deferred `w.Close()` runs, its error is dropped
    let stage := load w (readConfig w.environ) w.object
    ⟨stage.status, w.opened ++ w.loop.1 ++ [Event.closeWriter (!w.closeErr)] ++ stage.trace⟩

/-! ### Reading a trace -/

/-- The records the sink accepted, in the order of the calls of `Encode`. -/
def written : List Event → List TestResult
  | [] => []
  | Event.write r true :: es => r :: written es
  | _ :: es => written es

/-- The operation reported an error. -/
def Event.reportsError : Event → Bool
  | Event.openInput _ ok => !ok
  | Event.newStorageClient ok => !ok
  | Event.decode ok => !ok
  | Event.write _ ok => !ok
  | Event.closeWriter ok => !ok
  | Event.newWarehouseClient _ ok => !ok
  | Event.submitLoad _ _ _ ok => !ok
  | Event.waitLoad ok => !ok
  | Event.jobStatus ok => !ok
  | _ => false

/-- The event is the call `w.Close()` of the remote sink. -/
def Event.isClose : Event → Bool
  | Event.closeWriter _ => true
  | _ => false

/-- The event is the submission of the bulk load, `loader.Run`. -/
def Event.isSubmit : Event → Bool
  | Event.submitLoad _ _ _ _ => true
  | _ => false

/-- The event belongs to the transcoding loop: a call of `Decode` or of `Encode`. -/
def Event.isTranscode : Event → Bool
  | Event.decode _ => true
  | Event.write _ _ => true
  | _ => false

/-- The event is the opening of the writer on the staging object, `NewWriter`. -/
def Event.isNewWriter : Event → Bool
  | Event.newWriter _ _ => true
  | _ => false

/-- The units the loop reads before `jsonReader.More()` reports `false`. -/
def delivered : List InputUnit → List InputUnit
  | [] => []
  | InputUnit.closer :: _ => []
  | u :: rest => u :: delivered rest

/-- An environment given by a table of variables. -/
def environOf (vars : List (String × String)) : String → Option String :=
  fun key => vars.lookup key

/-- A world in which no operation reports an error. -/
def World.calm (environ : String → Option String) (input : List InputUnit) : World :=
  { environ := environ, path := "events.json", openErr := false, input := input,
    storageClientErr := false, writeErr := fun _ => false, closeErr := false,
    warehouseClientErr := false, submitErr := false, waitErr := false, jobErr := false }

/-- The environment of the examples: provenance r, main, abc, 42, test. -/
def sampleEnviron : String → Option String :=
  environOf [("BIGQUERY_PROJECT", "proj"), ("BIGQUERY_DATASET", "ds"), ("BIGQUERY_TABLE", "tbl"),
    ("TEST_RESULTS_BUCKET", "bkt"), ("CIRCLE_REPOSITORY_URL", "r"), ("CIRCLE_STAGE", "test"),
    ("CIRCLE_BRANCH", "main"), ("CIRCLE_BUILD_NUM", "42"), ("CIRCLE_SHA1", "abc")]

/-! ### The JSON text of the input

The decoder of `encoding/json` as `main` uses it: a stream of JSON values,
each decoded into the record.  Values nested inside a member are checked and
dropped, since no field of the record has a composite type. -/

/-- A JSON value as the decoder meets it in the place of a member of the record. -/
inductive JVal where
  | null
  | bool (b : Bool)
  | num (lit : String)
  | str (s : String)
  | composite
  deriving DecidableEq, Repr

/-- The double quote. -/
def quoteChar : Char := Char.ofNat 34

/-- The backslash. -/
def backslash : Char := Char.ofNat 92

/-- The blanks JSON allows between tokens. -/
def isSpace (c : Char) : Bool :=
  c = ' ' || c = '\t' || c = '\r' || c = '\n'

/-- The text without the blanks at its head. -/
def skipSpace : List Char → List Char
  | [] => []
  | c :: cs => if isSpace c then skipSpace cs else c :: cs

/-- A decimal digit. -/
def isDigit (c : Char) : Bool := '0' ≤ c && c ≤ '9'

/-- The value of a hexadecimal digit. -/
def hexVal (c : Char) : Option Nat :=
  if '0' ≤ c && c ≤ '9' then some (c.toNat - 48)
  else if 'a' ≤ c && c ≤ 'f' then some (c.toNat - 87)
  else if 'A' ≤ c && c ≤ 'F' then some (c.toNat - 55)
  else none

/-- Four hexadecimal digits, as after a `\u` escape. -/
def hex4 : List Char → Option (Nat × List Char)
  | a :: b :: c :: d :: rest =>
    match hexVal a, hexVal b, hexVal c, hexVal d with
    | some x, some y, some z, some t => some (((x * 16 + y) * 16 + z) * 16 + t, rest)
    | _, _, _, _ => none
  | _ => none

/-- The rune of a `\u` escape with value `n`, followed by `rest`: a surrogate
pair is one rune, a lone surrogate is U+FFFD. -/
def escapedRune (n : Nat) (rest : List Char) : Char × List Char :=
  if 0xD800 ≤ n && n < 0xDC00 then
    match rest with
    | b :: u :: r =>
      if b ≠ backslash || u ≠ 'u' then (Char.ofNat 0xFFFD, rest) else
      match hex4 r with
      | some (m, r2) =>
        if 0xDC00 ≤ m && m < 0xE000 then
          (Char.ofNat (0x10000 + (n - 0xD800) * 0x400 + (m - 0xDC00)), r2)
        else (Char.ofNat 0xFFFD, rest)
      | none => (Char.ofNat 0xFFFD, rest)
    | _ => (Char.ofNat 0xFFFD, rest)
  else if 0xDC00 ≤ n && n < 0xE000 then (Char.ofNat 0xFFFD, rest)
  else (Char.ofNat n, rest)

/-- The body of a string literal, after its opening quote: the text and what
follows the closing quote.  `acc` holds the runes read so far, last first. -/
def scanString : Nat → List Char → List Char → Option (String × List Char)
  | 0, _, _ => none
  | _ + 1, [], _ => none
  | fuel + 1, c :: rest, acc =>
    if c = quoteChar then some (String.mk acc.reverse, rest)
    else if c = backslash then
      match rest with
      | [] => none
      | e :: r =>
        if e = quoteChar then scanString fuel r (quoteChar :: acc)
        else if e = backslash then scanString fuel r (backslash :: acc)
        else if e = '/' then scanString fuel r ('/' :: acc)
        else if e = 'b' then scanString fuel r (Char.ofNat 8 :: acc)
        else if e = 'f' then scanString fuel r (Char.ofNat 12 :: acc)
        else if e = 'n' then scanString fuel r ('\n' :: acc)
        else if e = 'r' then scanString fuel r ('\r' :: acc)
        else if e = 't' then scanString fuel r ('\t' :: acc)
        else if e = 'u' then
          match hex4 r with
          | some (n, r2) => scanString fuel (escapedRune n r2).2 ((escapedRune n r2).1 :: acc)
          | none => none
        else none
    else if c.toNat < 0x20 then none
    else scanString fuel rest (c :: acc)

/-- The longest run of digits at the head of the text, and the rest. -/
def takeDigits : List Char → List Char × List Char
  | [] => ([], [])
  | c :: cs => if isDigit c then (c :: (takeDigits cs).1, (takeDigits cs).2) else ([], c :: cs)

/-- The exponent part of a number, if there is one: its text and the rest. -/
def scanExponent (cs : List Char) : Option (List Char × List Char) :=
  match cs with
  | e :: r =>
    if e = 'e' || e = 'E' then
      match r with
      | s :: r2 =>
        if s = '+' || s = '-' then
          if (takeDigits r2).1 = [] then none
          else some (e :: s :: (takeDigits r2).1, (takeDigits r2).2)
        else if (takeDigits r).1 = [] then none
        else some (e :: (takeDigits r).1, (takeDigits r).2)
      | [] => none
    else some ([], cs)
  | [] => some ([], cs)

/-- The fraction part of a number, if there is one: its text and the rest. -/
def scanFraction (cs : List Char) : Option (List Char × List Char) :=
  match cs with
  | d :: r =>
    if d = '.' then
      if (takeDigits r).1 = [] then none else some (d :: (takeDigits r).1, (takeDigits r).2)
    else some ([], cs)
  | [] => some ([], cs)

/-- The integer part of a number: a single 0, or a digit 1-9 and more digits. -/
def scanInteger (cs : List Char) : Option (List Char × List Char) :=
  match cs with
  | d :: r =>
    if d = '0' then some ([d], r)
    else if isDigit d then some (d :: (takeDigits r).1, (takeDigits r).2)
    else none
  | [] => none

/-- A number literal of the JSON grammar: its text and the rest. -/
def scanNumber (cs : List Char) : Option (String × List Char) :=
  let sign : List Char × List Char :=
    match cs with
    | '-' :: r => (['-'], r)
    | _ => ([], cs)
  match scanInteger sign.2 with
  | none => none
  | some (i, r1) =>
    match scanFraction r1 with
    | none => none
    | some (f, r2) =>
      match scanExponent r2 with
      | none => none
      | some (e, r3) => some (String.mk (sign.1 ++ i ++ f ++ e), r3)

/-- The text starts with the given word: what follows it. -/
def stripWord : List Char → List Char → Option (List Char)
  | [], cs => some cs
  | _ :: _, [] => none
  | w :: ws, c :: cs => if w = c then stripWord ws cs else none

/-- The elements of an array after its first value: commas and values up to
the closing bracket.  `val` reads one value. -/
def scanElemsTail (val : List Char → Option (JVal × List Char)) :
    Nat → List Char → Option (List Char)
  | 0, _ => none
  | fuel + 1, cs =>
    match skipSpace cs with
    | c :: r =>
      if c = ']' then some r
      else if c = ',' then
        match val r with
        | some (_, r2) => scanElemsTail val fuel r2
        | none => none
      else none
    | [] => none

/-- An array after its opening bracket. -/
def scanElems (val : List Char → Option (JVal × List Char)) (fuel : Nat) (cs : List Char) :
    Option (List Char) :=
  match skipSpace cs with
  | c :: r =>
    if c = ']' then some r
    else
      match val (c :: r) with
      | some (_, r2) => scanElemsTail val fuel r2
      | none => none
  | [] => none

/-- One member of an object: a string, a colon, a value. -/
def scanMember (val : List Char → Option (JVal × List Char)) (cs : List Char) :
    Option ((String × JVal) × List Char) :=
  match skipSpace cs with
  | q :: r =>
    if q = quoteChar then
      match scanString (r.length + 1) r [] with
      | some (key, r1) =>
        match skipSpace r1 with
        | c :: r2 =>
          if c = ':' then
            match val r2 with
            | some (v, r3) => some ((key, v), r3)
            | none => none
          else none
        | [] => none
      | none => none
    else none
  | [] => none

/-- The members of an object after its first member: commas and members up
to the closing brace. -/
def scanMembersTail (val : List Char → Option (JVal × List Char)) :
    Nat → List Char → Option (List (String × JVal) × List Char)
  | 0, _ => none
  | fuel + 1, cs =>
    match skipSpace cs with
    | c :: r =>
      if c = '}' then some ([], r)
      else if c = ',' then
        match scanMember val r with
        | some (m, r2) =>
          match scanMembersTail val fuel r2 with
          | some (ms, r3) => some (m :: ms, r3)
          | none => none
        | none => none
      else none
    | [] => none

/-- An object after its opening brace: its members in order, and the rest. -/
def scanMembers (val : List Char → Option (JVal × List Char)) (fuel : Nat) (cs : List Char) :
    Option (List (String × JVal) × List Char) :=
  match skipSpace cs with
  | c :: r =>
    if c = '}' then some ([], r)
    else
      match scanMember val (c :: r) with
      | some (m, r2) =>
        match scanMembersTail val fuel r2 with
        | some (ms, r3) => some (m :: ms, r3)
        | none => none
      | none => none
  | [] => none

/-- One JSON value, blanks before it skipped: the value and the rest, `none`
on a syntax error.  The fuel bounds the nesting and the length. -/
def scanValue : Nat → List Char → Option (JVal × List Char)
  | 0, _ => none
  | fuel + 1, cs =>
    match skipSpace cs with
    | [] => none
    | c :: r =>
      if c = quoteChar then
        match scanString (r.length + 1) r [] with
        | some (s, r2) => some (JVal.str s, r2)
        | none => none
      else if c = '{' then
        match scanMembers (scanValue fuel) fuel r with
        | some (_, r2) => some (JVal.composite, r2)
        | none => none
      else if c = '[' then
        match scanElems (scanValue fuel) fuel r with
        | some r2 => some (JVal.composite, r2)
        | none => none
      else if c = 't' then (stripWord ['r', 'u', 'e'] r).map (fun r2 => (JVal.bool true, r2))
      else if c = 'f' then
        (stripWord ['a', 'l', 's', 'e'] r).map (fun r2 => (JVal.bool false, r2))
      else if c = 'n' then (stripWord ['u', 'l', 'l'] r).map (fun r2 => (JVal.null, r2))
      else
        match scanNumber (c :: r) with
        | some (lit, r2) => some (JVal.num lit, r2)
        | none => none

/-- What the scanner finds at the next position of the input text. -/
inductive RawUnit where
  | members (ms : List (String × JVal))
  | other (v : JVal)
  | closer
  | invalid
  deriving DecidableEq, Repr

/-- The stream of the units of an input text.  A closing bracket or brace at
the place of a value ends it (`More()` is `false` there), and so does a syntax
error, after which the decoder reads no further.  A value ends where its last
byte ends: the next value may follow it without a blank. -/
def scanUnits : Nat → List Char → List RawUnit
  | 0, _ => []
  | fuel + 1, cs =>
    match skipSpace cs with
    | [] => []
    | c :: r =>
      if c = ']' || c = '}' then [RawUnit.closer]
      else if c = '{' then
        match scanMembers (scanValue (r.length + 1)) (r.length + 1) r with
        | some (ms, r2) => RawUnit.members ms :: scanUnits fuel r2
        | none => [RawUnit.invalid]
      else
        match scanValue (r.length + 2) (c :: r) with
        | some (v, r2) => RawUnit.other v :: scanUnits fuel r2
        | none => [RawUnit.invalid]

/-- The conversions of the packages `strconv` and `time` that the codec
relies on.  They are a parameter of the model: the arithmetic of `float64`
and the calendar are not modelled. -/
structure Leaves where
  /-- `strconv.ParseFloat` on a JSON number literal: the `float64` it denotes,
  `none` when the literal is out of range. -/
  parseFloat : String → Option ℚ
  /-- The text `encoding/json` writes for a `float64`. -/
  formatFloat : ℚ → String
  /-- `Time.UnmarshalJSON` on the text of a JSON string: the RFC 3339 text the
  instant is written back with, `none` when the text is not a timestamp. -/
  parseTime : String → Option String

/-- The fields of `TestResult`, lines 17-28. -/
inductive FieldName where
  | Time | Action | Package | Test | Elapsed | Output | Repo | Branch | Commit | Run | Stage
  deriving DecidableEq, Repr

/-- The fields with their JSON names, in the order of the declaration. -/
def FieldName.all : List (FieldName × String) :=
  [(FieldName.Time, "Time"), (FieldName.Action, "Action"), (FieldName.Package, "Package"),
   (FieldName.Test, "Test"), (FieldName.Elapsed, "Elapsed"), (FieldName.Output, "Output"),
   (FieldName.Repo, "Repo"), (FieldName.Branch, "Branch"), (FieldName.Commit, "Commit"),
   (FieldName.Run, "Run"), (FieldName.Stage, "Stage")]

/-- The folding under which the decoder compares a key with a field name:
letters to upper case, the long s and the Kelvin sign to S and K. -/
def foldRune (c : Char) : Char :=
  if 'a' ≤ c && c ≤ 'z' then Char.ofNat (c.toNat - 32)
  else if c.toNat = 0x17F then 'S'
  else if c.toNat = 0x212A then 'K'
  else c

/-- A name folded rune by rune. -/
def foldName (s : String) : List Char := s.data.map foldRune

/-- The field a key of the input names, if any: keys match without regard to case. -/
def fieldOf (key : String) : Option FieldName :=
  (FieldName.all.find? (fun p => foldName p.2 = foldName key)).map (fun p => p.1)

/-- One member is stored into the field it names: `null` stores nothing, a
value of the wrong kind is an error (`none`). -/
def store (lv : Leaves) (f : Fields) : FieldName → JVal → Option Fields
  | _, JVal.null => some f
  | FieldName.Time, JVal.str s => (lv.parseTime s).map (fun t => { f with Time := some t })
  | FieldName.Elapsed, JVal.num lit =>
    (lv.parseFloat lit).map (fun x => { f with Elapsed := some x })
  | FieldName.Action, JVal.str s => some { f with Action := some s }
  | FieldName.Package, JVal.str s => some { f with Package := some s }
  | FieldName.Test, JVal.str s => some { f with Test := some s }
  | FieldName.Output, JVal.str s => some { f with Output := some s }
  | FieldName.Repo, JVal.str s => some { f with Repo := some s }
  | FieldName.Branch, JVal.str s => some { f with Branch := some s }
  | FieldName.Commit, JVal.str s => some { f with Commit := some s }
  | FieldName.Run, JVal.str s => some { f with Run := some s }
  | FieldName.Stage, JVal.str s => some { f with Stage := some s }
  | _, _ => none

/-- The members of an object are stored in order; a key that names no field is skipped. -/
def toFields (lv : Leaves) : List (String × JVal) → Fields → Option Fields
  | [], f => some f
  | (key, v) :: ms, f =>
    match fieldOf key with
    | none => toFields lv ms f
    | some name =>
      match store lv f name v with
      | some f2 => toFields lv ms f2
      | none => none

/-- What `Decode` makes of a unit of the input text: an object decodes into
the record member by member, `null` decodes into nothing, any other value and
any syntax error is a decoding error. -/
def toUnit (lv : Leaves) : RawUnit → InputUnit
  | RawUnit.members ms =>
    match toFields lv ms {} with
    | some f => InputUnit.object f
    | none => InputUnit.malformed
  | RawUnit.other JVal.null => InputUnit.object {}
  | RawUnit.other _ => InputUnit.malformed
  | RawUnit.closer => InputUnit.closer
  | RawUnit.invalid => InputUnit.malformed

/-- The units the decoder finds in the text of the input file. -/
def readInput (lv : Leaves) (text : String) : List InputUnit :=
  (scanUnits (text.length + 1) text.data).map (toUnit lv)

/-! ### The JSON text of the output -/

/-- The lower-case hexadecimal digit of a value below 16. -/
def hexDigit (n : Nat) : Char :=
  if n < 10 then Char.ofNat (48 + n) else Char.ofNat (87 + n)

/-- The escape of one rune inside a string, as the encoder writes it with
its default setting (HTML characters escaped): quote and backslash with a
backslash, newline, carriage return and tab by letter, the other control
characters and the characters of HTML by their code, U+2028 and U+2029 by
their code. -/
def escapeRune (c : Char) : List Char :=
  if c = quoteChar then [backslash, quoteChar]
  else if c = backslash then [backslash, backslash]
  else if c.toNat = 10 then [backslash, 'n']
  else if c.toNat = 13 then [backslash, 'r']
  else if c.toNat = 9 then [backslash, 't']
  else if c.toNat < 0x20 || c = '<' || c = '>' || c = '&' then
    [backslash, 'u', '0', '0', hexDigit (c.toNat / 16), hexDigit (c.toNat % 16)]
  else if c.toNat = 0x2028 || c.toNat = 0x2029 then
    [backslash, 'u', '2', '0', '2', hexDigit (c.toNat % 16)]
  else [c]

/-- A string as a JSON string literal. -/
def quote (s : String) : String :=
  String.mk (quoteChar :: (s.data.map escapeRune).flatten ++ [quoteChar])

/-- The call `jsonWriter.Encode(result)`: one object with the eleven fields in
the order of the declaration, every field written, and a newline. -/
def encode (lv : Leaves) (r : TestResult) : String :=
  "\x7b" ++ quote "Time" ++ ":" ++ String.mk (quoteChar :: r.Time.data ++ [quoteChar]) ++
  "," ++ quote "Action" ++ ":" ++ quote r.Action ++
  "," ++ quote "Package" ++ ":" ++ quote r.Package ++
  "," ++ quote "Test" ++ ":" ++ quote r.Test ++
  "," ++ quote "Elapsed" ++ ":" ++ lv.formatFloat r.Elapsed ++
  "," ++ quote "Output" ++ ":" ++ quote r.Output ++
  "," ++ quote "Repo" ++ ":" ++ quote r.Repo ++
  "," ++ quote "Branch" ++ ":" ++ quote r.Branch ++
  "," ++ quote "Commit" ++ ":" ++ quote r.Commit ++
  "," ++ quote "Run" ++ ":" ++ quote r.Run ++
  "," ++ quote "Stage" ++ ":" ++ quote r.Stage ++ "\x7d\n"

/-- The bytes the sink received in a run: the encodings of the records it accepted. -/
def outputText (lv : Leaves) (trace : List Event) : String :=
  String.join ((written trace).map (encode lv))

/-! ### A conversion of decimals, exact on the numbers with a finite expansion -/

/-- The number a run of decimal digits denotes. -/
def digitsValue (ds : List Char) : Nat :=
  ds.foldl (fun n c => 10 * n + (c.toNat - 48)) 0

/-- The value of a literal made of an optional sign, digits, and an optional
fraction; `none` for a literal with an exponent. -/
def parseDecimal (lit : String) : Option ℚ :=
  let neg : Bool := lit.data.head? = some '-'
  let body : List Char := if neg then lit.data.tail else lit.data
  let sign : ℚ := if neg then -1 else 1
  match (takeDigits body).2 with
  | [] => some (sign * (digitsValue (takeDigits body).1 : ℚ))
  | d :: fr =>
    if d = '.' && (takeDigits fr).2 = [] then
      some (sign * ((digitsValue (takeDigits body).1 : ℚ) +
        (digitsValue fr : ℚ) / ((10 ^ fr.length : Nat) : ℚ)))
    else none

/-- The digits of the fraction `rem / den`, at most `fuel` of them. -/
def fractionDigits (den : Nat) : Nat → Nat → List Char
  | 0, _ => []
  | fuel + 1, rem =>
    if rem = 0 then []
    else Char.ofNat (48 + rem * 10 / den) :: fractionDigits den fuel (rem * 10 % den)

/-- The decimal text of a rational: sign, integer part, and the digits of the
fraction when there is one. -/
def formatDecimal (x : ℚ) : String :=
  let n : Nat := x.num.natAbs
  (if x.num < 0 then "-" else "") ++ toString (n / x.den) ++
    (if n % x.den = 0 then "" else "." ++ String.mk (fractionDigits x.den 17 (n % x.den)))

/-- The leaves used in the examples: decimals are read and written exactly,
the text of a timestamp is taken as it stands. -/
def decimalLeaves : Leaves :=
  { parseFloat := parseDecimal, formatFloat := formatDecimal, parseTime := fun s => some s }

/-! ### The scenario of one record -/

/-- The input of the scenario: one record, Action pass, Package pkg, Elapsed 0.5. -/
def scenarioInput : String :=
  "\x7b\"Action\":\"pass\",\"Package\":\"pkg\",\"Elapsed\":0.5\x7d\n"

/-- The members of the record of the scenario. -/
def scenarioFields : Fields :=
  { Action := some "pass", Package := some "pkg", Elapsed := some (1 / 2) }

/-- The output the scenario expects. -/
def scenarioOutput : String :=
  "\x7b\"Time\":\"0001-01-01T00:00:00Z\",\"Action\":\"pass\",\"Package\":\"pkg\",\"Test\":\"\",\"Elapsed\":0.5,\"Output\":\"\",\"Repo\":\"r\",\"Branch\":\"main\",\"Commit\":\"abc\",\"Run\":\"42\",\"Stage\":\"test\"\x7d\n"

/-! ### Inputs at which the run is examined -/

/-- Two records, the second without a Test member. -/
def omittedTestInput : String :=
  "\x7b\"Action\":\"run\",\"Package\":\"p\",\"Test\":\"TestA\"\x7d\n\x7b\"Action\":\"pass\",\"Package\":\"p\"\x7d\n"

/-- A record, a stray closing bracket, another record. -/
def strayCloserInput : String :=
  "\x7b\"Action\":\"pass\",\"Package\":\"pkg\"\x7d\n]\n\x7b\"Action\":\"fail\",\"Package\":\"pkg\"\x7d\n"

/-- A record, then a record cut short. -/
def truncatedInput : String :=
  "\x7b\"Action\":\"pass\",\"Package\":\"pkg\"\x7d\n\x7b\"Action\":"

/-- One record. -/
def oneRecordInput : String :=
  "\x7b\"Action\":\"pass\",\"Package\":\"pkg\"\x7d\n"

/-! ### The transcoding loop on well-formed input -/

theorem written_append (xs ys : List Event) : written (xs ++ ys) = written xs ++ written ys := by
  induction xs with
  | nil => rfl
  | cons e es ih =>
    cases e with
    | write r ok => cases ok <;> simp [written, ih]
    | _ => simp [written, ih]

theorem written_load (w : World) (c : Config) (object : String) :
    written (load w c object).trace = [] := by
  unfold load
  split_ifs <;> rfl

theorem main_openErr (w : World) (h : w.openErr = true) :
    main w = ⟨1, [Event.openInput w.path false]⟩ := by
  simp [main, h]

theorem main_storageClientErr (w : World) (h1 : w.openErr = false)
    (h2 : w.storageClientErr = true) :
    main w = ⟨1, [Event.openInput w.path true, Event.newStorageClient false]⟩ := by
  simp [main, h1, h2]

theorem main_loopExit (w : World) (h1 : w.openErr = false) (h2 : w.storageClientErr = false)
    (h3 : w.loop.2 = true) : main w = ⟨1, w.opened ++ w.loop.1⟩ := by
  simp [main, h1, h2, h3]

theorem main_loopDone (w : World) (h1 : w.openErr = false) (h2 : w.storageClientErr = false)
    (h3 : w.loop.2 = false) :
    main w = ⟨(load w (readConfig w.environ) w.object).status,
      w.opened ++ w.loop.1 ++ [Event.closeWriter (!w.closeErr)] ++
        (load w (readConfig w.environ) w.object).trace⟩ := by
  simp [main, h1, h2, h3]

/-- On a stream of well-formed objects and a sink that accepts every write, the loop ends
normally, writes one record per object, and the k-th record is the stamped decoding of the
k-th object into the value the variable `result` held at that point. -/
theorem transcode_objects (c : Config) (we : Nat → Bool) (hwe : ∀ n, we n = false) :
    ∀ (fs : List Fields) (r : TestResult) (n : Nat),
      (transcode c we (fs.map InputUnit.object) r n).2 = false ∧
      (written (transcode c we (fs.map InputUnit.object) r n).1).length = fs.length ∧
      ∀ (k : Nat) (f : Fields) (out : TestResult), fs[k]? = some f →
        (written (transcode c we (fs.map InputUnit.object) r n).1)[k]? = some out →
        ∃ prev, out = stamp c (decodeInto f prev) := by
  intro fs
  induction fs with
  | nil => intro r n; simp [transcode, written]
  | cons g gs ih =>
    intro r n
    obtain ⟨h1, h2, h3⟩ := ih (stamp c (decodeInto g r)) (n + 1)
    simp only [List.map_cons, transcode, hwe, Bool.false_eq_true, if_false, written]
    refine ⟨h1, by simp [h2], ?_⟩
    intro k f out hf hout
    cases k with
    | zero =>
      simp only [List.getElem?_cons_zero, Option.some.injEq] at hf hout
      exact ⟨r, by rw [← hf, ← hout]⟩
    | succ j =>
      simp only [List.getElem?_cons_succ] at hf hout
      exact h3 j f out hf hout

/-- C1: for an input of N well-formed records and any provenance read from the
environment, a run whose file, storage client and sink report no error writes exactly N
records; the k-th written record carries every non-provenance member present in the k-th
input record unchanged, and its Repo, Branch, Commit, Run and Stage are the supplied
values, whatever the input record held for them. -/
theorem C1_one_record_per_input_in_order (w : World) (fs : List Fields)
    (hin : w.input = fs.map InputUnit.object)
    (hopen : w.openErr = false) (hclient : w.storageClientErr = false)
    (hsink : ∀ n, w.writeErr n = false) :
    (written (main w).trace).length = fs.length ∧
    ∀ (k : Nat) (f : Fields) (out : TestResult), fs[k]? = some f →
      (written (main w).trace)[k]? = some out →
      ((∀ v, f.Time = some v → out.Time = v) ∧ (∀ v, f.Action = some v → out.Action = v) ∧
       (∀ v, f.Package = some v → out.Package = v) ∧ (∀ v, f.Test = some v → out.Test = v) ∧
       (∀ v, f.Elapsed = some v → out.Elapsed = v) ∧ (∀ v, f.Output = some v → out.Output = v)) ∧
      out.Repo = Getenv w.environ "CIRCLE_REPOSITORY_URL" ∧
      out.Branch = Getenv w.environ "CIRCLE_BRANCH" ∧
      out.Commit = Getenv w.environ "CIRCLE_SHA1" ∧
      out.Run = Getenv w.environ "CIRCLE_BUILD_NUM" ∧
      out.Stage = Getenv w.environ "CIRCLE_STAGE" := by
  obtain ⟨h1, h2, h3⟩ := transcode_objects (readConfig w.environ) w.writeErr hsink fs
    TestResult.zero 0
  have hloop : w.loop = transcode (readConfig w.environ) w.writeErr
      (fs.map InputUnit.object) TestResult.zero 0 := by
    rw [World.loop, hin]
  have htrace : written (main w).trace
      = written (transcode (readConfig w.environ) w.writeErr
          (fs.map InputUnit.object) TestResult.zero 0).1 := by
    rw [main_loopDone w hopen hclient (by rw [hloop]; exact h1)]
    simp [written_append, written_load, written, World.opened, hloop]
  rw [htrace]
  refine ⟨h2, ?_⟩
  intro k f out hf hout
  obtain ⟨prev, rfl⟩ := h3 k f out hf hout
  refine ⟨⟨?_, ?_, ?_, ?_, ?_, ?_⟩, rfl, rfl, rfl, rfl, rfl⟩ <;>
    · intro v hv
      simp [stamp, decodeInto, hv]

/-- Witness of C1: two records, the second with members of its own and a Repo member. -/
theorem C1_one_record_per_input_in_order_witness :
    (written (main (World.calm sampleEnviron
        [InputUnit.object { Action := some "run", Package := some "p" },
         InputUnit.object { Action := some "pass", Repo := some "other" }])).trace).length = 2 :=
  (C1_one_record_per_input_in_order
    (World.calm sampleEnviron
      [InputUnit.object { Action := some "run", Package := some "p" },
       InputUnit.object { Action := some "pass", Repo := some "other" }])
    [{ Action := some "run", Package := some "p" }, { Action := some "pass", Repo := some "other" }]
    rfl rfl rfl (fun _ => rfl)).1

/-! ### Runs at concrete inputs -/

/-- C2 (the run at the failing input): the second record of the input has no Test member,
yet the record written for it carries the Test of the first record: the variable `result`
is declared before the loop and `Decode` stores only the members that are present. -/
theorem C2_omitted_field_keeps_earlier_value :
    readInput decimalLeaves omittedTestInput
      = [InputUnit.object { Action := some "run", Package := some "p", Test := some "TestA" },
         InputUnit.object { Action := some "pass", Package := some "p" }] ∧
    written (main (World.calm sampleEnviron (readInput decimalLeaves omittedTestInput))).trace
    = [{ Time := zeroTime, Action := "run", Package := "p", Test := "TestA", Elapsed := 0,
         Output := "", Repo := "r", Branch := "main", Commit := "abc", Run := "42",
         Stage := "test" },
       { Time := zeroTime, Action := "pass", Package := "p", Test := "TestA", Elapsed := 0,
         Output := "", Repo := "r", Branch := "main", Commit := "abc", Run := "42",
         Stage := "test" }] := by
  decide

/-- C3 (the run at the failing input): the unit at position 1 is a stray closing bracket,
which cannot be decoded into a record.  The run does not abort: `More()` reports `false`,
the loop ends as if the input were exhausted, the sink is closed, the load is submitted
and the status is zero; the record after the bracket is never read. -/
theorem C3_stray_closer_ends_input_silently :
    readInput decimalLeaves strayCloserInput
      = [InputUnit.object { Action := some "pass", Package := some "pkg" },
         InputUnit.closer] ∧
    main (World.calm sampleEnviron (readInput decimalLeaves strayCloserInput))
    = { status := 0
        trace := [Event.openInput "events.json" true, Event.newStorageClient true,
          Event.newWriter "bkt" "r/main/42-test-abc", Event.decode true,
          Event.write
            { Time := zeroTime, Action := "pass", Package := "pkg", Test := "", Elapsed := 0,
              Output := "", Repo := "r", Branch := "main", Commit := "abc", Run := "42",
              Stage := "test" } true,
          Event.closeWriter true, Event.newWarehouseClient "proj" true,
          Event.submitLoad "gs://bkt/r/main/42-test-abc" "ds" "tbl" true,
          Event.waitLoad true, Event.jobStatus true, Event.closeWarehouseClient,
          Event.closeInput] } := by
  decide

/-- C5 (the runs at the failing inputs): when the decoder reports an error, and when the
sink refuses a write, the run ends with status 1 and its trace holds no close of the sink:
`os.Exit(1)` ends the process without running the deferred `w.Close()`. -/
theorem C5_sink_not_closed_on_failure :
    (readInput decimalLeaves truncatedInput
        = [InputUnit.object { Action := some "pass", Package := some "pkg" },
           InputUnit.malformed] ∧
     (main (World.calm sampleEnviron (readInput decimalLeaves truncatedInput))).status = 1 ∧
     (main (World.calm sampleEnviron (readInput decimalLeaves truncatedInput))).trace.filter
        Event.isClose = []) ∧
    ((main { World.calm sampleEnviron (readInput decimalLeaves oneRecordInput) with
        writeErr := fun _ => true }).status = 1 ∧
     (main { World.calm sampleEnviron (readInput decimalLeaves oneRecordInput) with
        writeErr := fun _ => true }).trace.filter Event.isClose = []) := by
  decide

/-- C7 (counterexample): the name of the staging object for the tuple r, main, 42, test,
abc is not the five values joined with path separators, and no writer is opened on an
object of that name. -/
theorem C7_name_is_not_slash_joined :
    objectName "r" "main" "42" "test" "abc" ≠ "r/main/42/test/abc" ∧
    Event.newWriter "bkt" "r/main/42/test/abc" ∉ (main (World.calm sampleEnviron [])).trace := by
  decide

/-- C10: two distinct provenance tuples (run 1-2 with stage 3, run 1 with stage 2-3, the
other three values equal) yield the same object name, and the two runs open their writer on
the same object of the same bucket. -/
theorem C10_distinct_tuples_share_an_object_name :
    (("r", "main", "1-2", "3", "abc") : String × String × String × String × String)
      ≠ ("r", "main", "1", "2-3", "abc") ∧
    objectName "r" "main" "1-2" "3" "abc" = objectName "r" "main" "1" "2-3" "abc" ∧
    (main (World.calm (environOf [("TEST_RESULTS_BUCKET", "bkt"), ("CIRCLE_REPOSITORY_URL", "r"),
        ("CIRCLE_BRANCH", "main"), ("CIRCLE_BUILD_NUM", "1-2"), ("CIRCLE_STAGE", "3"),
        ("CIRCLE_SHA1", "abc")]) [])).trace[2]?
      = (main (World.calm (environOf [("TEST_RESULTS_BUCKET", "bkt"),
        ("CIRCLE_REPOSITORY_URL", "r"), ("CIRCLE_BRANCH", "main"), ("CIRCLE_BUILD_NUM", "1"),
        ("CIRCLE_STAGE", "2-3"), ("CIRCLE_SHA1", "abc")]) [])).trace[2]? ∧
    (main (World.calm (environOf [("TEST_RESULTS_BUCKET", "bkt"), ("CIRCLE_REPOSITORY_URL", "r"),
        ("CIRCLE_BRANCH", "main"), ("CIRCLE_BUILD_NUM", "1-2"), ("CIRCLE_STAGE", "3"),
        ("CIRCLE_SHA1", "abc")]) [])).trace[2]?
      = some (Event.newWriter "bkt" "r/main/1-2-3-abc") := by
  decide

/-! ### Errors: which ones end the run -/

/-- Every operation of the loop is a call of `Decode` or of `Encode`. -/
theorem transcode_isTranscode (c : Config) (we : Nat → Bool) :
    ∀ (us : List InputUnit) (r : TestResult) (n : Nat),
      ∀ e ∈ (transcode c we us r n).1, e.isTranscode = true := by
  intro us
  induction us with
  | nil => intro r n e he; simp [transcode] at he
  | cons u rest ih =>
    intro r n e he
    cases u with
    | closer => simp [transcode] at he
    | malformed =>
      simp only [transcode, List.mem_singleton] at he
      subst he; rfl
    | object f =>
      simp only [transcode] at he
      split_ifs at he with hw
      · simp only [List.mem_cons, List.mem_singleton, List.not_mem_nil, or_false] at he
        rcases he with rfl | rfl <;> rfl
      · simp only [List.mem_cons] at he
        rcases he with rfl | rfl | he
        · rfl
        · rfl
        · exact ih _ _ e he

/-- When the loop ends normally, none of its operations reported an error. -/
theorem transcode_ok (c : Config) (we : Nat → Bool) :
    ∀ (us : List InputUnit) (r : TestResult) (n : Nat), (transcode c we us r n).2 = false →
      ∀ e ∈ (transcode c we us r n).1, e.reportsError = false := by
  intro us
  induction us with
  | nil => intro r n _ e he; simp [transcode] at he
  | cons u rest ih =>
    intro r n h e he
    cases u with
    | closer => simp [transcode] at he
    | malformed => simp [transcode] at h
    | object f =>
      simp only [transcode] at h he
      split_ifs at h he with hw
      simp only [List.mem_cons] at he
      rcases he with rfl | rfl | he
      · rfl
      · rfl
      · exact ih _ _ h e he

/-- When the loop leaves through `os.Exit(1)`, its last operation is the one that
reported the error and no earlier one did. -/
theorem transcode_exit (c : Config) (we : Nat → Bool) :
    ∀ (us : List InputUnit) (r : TestResult) (n : Nat), (transcode c we us r n).2 = true →
      ∃ init e, (transcode c we us r n).1 = init ++ [e] ∧ e.reportsError = true ∧
        e.isClose = false ∧ ∀ x ∈ init, x.reportsError = false := by
  intro us
  induction us with
  | nil => intro r n h; simp [transcode] at h
  | cons u rest ih =>
    intro r n h
    cases u with
    | closer => simp [transcode] at h
    | malformed => exact ⟨[], Event.decode false, rfl, rfl, rfl, by simp⟩
    | object f =>
      simp only [transcode] at h ⊢
      split_ifs at h ⊢ with hw
      · refine ⟨[Event.decode true], Event.write (stamp c (decodeInto f r)) false, rfl, rfl,
          rfl, ?_⟩
        intro x hx
        simp only [List.mem_singleton] at hx
        subst hx; rfl
      · obtain ⟨init, e, h1, h2, h3, h4⟩ := ih _ _ h
        refine ⟨Event.decode true :: Event.write (stamp c (decodeInto f r)) true :: init, e,
          ?_, h2, h3, ?_⟩
        · simp only [h1, List.cons_append]
        · intro x hx
          simp only [List.mem_cons] at hx
          rcases hx with rfl | rfl | hx
          · rfl
          · rfl
          · exact h4 x hx

theorem opened_ok (w : World) : ∀ x ∈ w.opened, x.reportsError = false := by
  intro x hx
  simp only [World.opened, List.mem_cons, List.not_mem_nil, or_false] at hx
  rcases hx with rfl | rfl | rfl <;> rfl

/-- The load stage either ends with status 0 and no error, or with status 1 at the first
operation that reported an error. -/
theorem load_shape (w : World) (c : Config) (object : String) :
    ((load w c object).status = 0 ∧ ∀ e ∈ (load w c object).trace, e.reportsError = false) ∨
    ((load w c object).status = 1 ∧ ∃ init e, (load w c object).trace = init ++ [e] ∧
      e.reportsError = true ∧ e.isClose = false ∧ ∀ x ∈ init, x.reportsError = false) := by
  unfold load
  split_ifs
  · exact Or.inr ⟨rfl, [], _, rfl, rfl, rfl, by simp⟩
  · exact Or.inr ⟨rfl, [_], _, rfl, rfl, rfl, by simp [Event.reportsError]⟩
  · exact Or.inr ⟨rfl, [_, _], _, rfl, rfl, rfl, by simp [Event.reportsError]⟩
  · exact Or.inr ⟨rfl, [_, _, _], _, rfl, rfl, rfl, by simp [Event.reportsError]⟩
  · exact Or.inl ⟨rfl, by simp [Event.reportsError]⟩

/-- A run either ends with status 0 and every error in its trace is an error of the close
of the sink, or it ends with status 1 and the last operation of its trace is the only one,
the close of the sink apart, that reported an error. -/
theorem main_shape (w : World) :
    ((main w).status = 0 ∧
      ∀ e ∈ (main w).trace, e.reportsError = true → e.isClose = true) ∨
    ((main w).status = 1 ∧ ∃ init e, (main w).trace = init ++ [e] ∧ e.reportsError = true ∧
      e.isClose = false ∧ ∀ x ∈ init, x.reportsError = true → x.isClose = true) := by
  cases h1 : w.openErr with
  | true =>
    rw [main_openErr w h1]
    exact Or.inr ⟨rfl, [], _, rfl, rfl, rfl, by simp⟩
  | false =>
    cases h2 : w.storageClientErr with
    | true =>
      rw [main_storageClientErr w h1 h2]
      exact Or.inr ⟨rfl, [_], _, rfl, rfl, rfl, by simp [Event.reportsError]⟩
    | false =>
      cases h3 : w.loop.2 with
      | true =>
        rw [main_loopExit w h1 h2 h3]
        obtain ⟨init, e, e1, e2, e3, e4⟩ := transcode_exit _ _ _ _ _ h3
        refine Or.inr ⟨rfl, w.opened ++ init, e, ?_, e2, e3, ?_⟩
        · show w.opened ++ w.loop.1 = w.opened ++ init ++ [e]
          rw [World.loop, e1, List.append_assoc]
        · intro x hx hxe
          rcases List.mem_append.mp hx with hx | hx
          · rw [opened_ok w x hx] at hxe; cases hxe
          · rw [e4 x hx] at hxe; cases hxe
      | false =>
        rw [main_loopDone w h1 h2 h3]
        have hpre : ∀ x ∈ w.opened ++ w.loop.1 ++ [Event.closeWriter (!w.closeErr)],
            x.reportsError = true → x.isClose = true := by
          intro x hx hxe
          rcases List.mem_append.mp hx with hx | hx
          · rcases List.mem_append.mp hx with hx | hx
            · rw [opened_ok w x hx] at hxe; cases hxe
            · rw [transcode_ok _ _ _ _ _ h3 x hx] at hxe; cases hxe
          · rw [List.mem_singleton.mp hx]; rfl
        rcases load_shape w (readConfig w.environ) w.object with ⟨l1, l2⟩ | ⟨l1, init, e, e1, e2, e3, e4⟩
        · refine Or.inl ⟨l1, ?_⟩
          intro x hx hxe
          rcases List.mem_append.mp hx with hx | hx
          · exact hpre x hx hxe
          · rw [l2 x hx] at hxe; cases hxe
        · refine Or.inr ⟨l1, w.opened ++ w.loop.1 ++ [Event.closeWriter (!w.closeErr)] ++ init,
            e, ?_, e2, e3, ?_⟩
          · show _ ++ (load w (readConfig w.environ) w.object).trace = _
            rw [e1]
            simp only [List.append_assoc]
          · intro x hx hxe
            rcases List.mem_append.mp hx with hx | hx
            · exact hpre x hx hxe
            · rw [e4 x hx] at hxe; cases hxe

/-- C4 (the run at the failing input): the close of the remote sink reports an error and
every other operation succeeds.  The error is dropped: the run goes on to create the
warehouse client, submits the load, waits for it and ends with status 0. -/
theorem C4_close_error_is_dropped :
    readInput decimalLeaves oneRecordInput
      = [InputUnit.object { Action := some "pass", Package := some "pkg" }] ∧
    main { World.calm sampleEnviron (readInput decimalLeaves oneRecordInput) with
        closeErr := true }
    = { status := 0
        trace := [Event.openInput "events.json" true, Event.newStorageClient true,
          Event.newWriter "bkt" "r/main/42-test-abc", Event.decode true,
          Event.write
            { Time := zeroTime, Action := "pass", Package := "pkg", Test := "", Elapsed := 0,
              Output := "", Repo := "r", Branch := "main", Commit := "abc", Run := "42",
              Stage := "test" } true,
          Event.closeWriter false, Event.newWarehouseClient "proj" true,
          Event.submitLoad "gs://bkt/r/main/42-test-abc" "ds" "tbl" true,
          Event.waitLoad true, Event.jobStatus true, Event.closeWarehouseClient,
          Event.closeInput] } := by
  decide

/-- Whether the close of the sink reports an error changes neither the status of a run
nor any of its other operations. -/
theorem close_error_changes_nothing (w : World) (b : Bool) :
    (main { w with closeErr := b }).status = (main w).status ∧
    (main { w with closeErr := b }).trace.filter (fun e => !e.isClose)
      = (main w).trace.filter (fun e => !e.isClose) := by
  rcases Bool.eq_false_or_eq_true w.openErr with h1 | h1
  · rw [main_openErr w h1, main_openErr { w with closeErr := b } h1]
    exact ⟨rfl, rfl⟩
  · rcases Bool.eq_false_or_eq_true w.storageClientErr with h2 | h2
    · rw [main_storageClientErr w h1 h2, main_storageClientErr { w with closeErr := b } h1 h2]
      exact ⟨rfl, rfl⟩
    · rcases Bool.eq_false_or_eq_true w.loop.2 with h3 | h3
      · rw [main_loopExit w h1 h2 h3, main_loopExit { w with closeErr := b } h1 h2 h3]
        exact ⟨rfl, rfl⟩
      · rw [main_loopDone w h1 h2 h3, main_loopDone { w with closeErr := b } h1 h2 h3]
        refine ⟨rfl, ?_⟩
        have hl : load { w with closeErr := b } (readConfig w.environ) w.object
            = load w (readConfig w.environ) w.object := rfl
        have ho : ({ w with closeErr := b } : World).opened = w.opened := rfl
        have hp : ({ w with closeErr := b } : World).loop = w.loop := rfl
        have hobj : ({ w with closeErr := b } : World).object = w.object := rfl
        simp only [hobj, hl, ho, hp, List.filter_append, List.filter_cons, List.filter_nil,
          Event.isClose, Bool.not_true, Bool.false_eq_true, if_false]

/-- The errors that end a run: it ends with status zero if and only if no operation other
than the close of the remote sink reported an error (opening the input, creating the
storage client, decoding, writing, creating the warehouse client, submitting the load,
waiting on it, the terminal status of the job); and an operation other than the close that
reports an error is the last operation of the run, which ends with a status that is not
zero. -/
theorem fail_fast_on_checked_errors (w : World) :
    ((main w).status = 0 ↔
      ∀ e ∈ (main w).trace, e.reportsError = true → e.isClose = true) ∧
    (∀ (pre : List Event) (e : Event) (post : List Event),
      (main w).trace = pre ++ e :: post → e.reportsError = true → e.isClose = false →
        post = [] ∧ (main w).status ≠ 0) := by
  rcases main_shape w with ⟨s0, hall⟩ | ⟨s1, init, e, htr, he, hc, hinit⟩
  · refine ⟨⟨fun _ => hall, fun _ => s0⟩, ?_⟩
    intro pre x post hsplit hx hxc
    have hmem : x ∈ (main w).trace := by rw [hsplit]; simp
    rw [hall x hmem hx] at hxc; cases hxc
  · have hne : (main w).status ≠ 0 := by rw [s1]; decide
    have hmem : e ∈ (main w).trace := by rw [htr]; simp
    refine ⟨⟨fun h => absurd h hne, fun h => ?_⟩, ?_⟩
    · rw [h e hmem he] at hc; cases hc
    · intro pre x post hsplit hx hxc
      refine ⟨?_, hne⟩
      rcases List.eq_nil_or_concat post with hp | ⟨post', z, hp⟩
      · exact hp
      · exfalso
        have heq : init ++ [e] = (pre ++ x :: post') ++ [z] := by
          rw [← htr, hsplit, hp]; simp
        have hinj := List.append_inj' heq rfl
        have hxin : x ∈ init := by rw [hinj.1]; simp
        rw [hinit x hxin hx] at hxc; cases hxc

/-! ### The load: once, after the close, from the object that was written -/

/-- A list splits in one way only around its single element satisfying `p`. -/
theorem split_unique {α : Type} (p : α → Bool) :
    ∀ (xs pre : List α) (x y : α) (ys post : List α),
      xs ++ x :: ys = pre ++ y :: post → (∀ a ∈ xs, p a = false) → (∀ a ∈ ys, p a = false) →
      p y = true → pre = xs ∧ y = x ∧ post = ys := by
  intro xs
  induction xs with
  | nil =>
    intro pre x y ys post h _ hys hy
    cases pre with
    | nil =>
      simp only [List.nil_append, List.cons.injEq] at h
      exact ⟨rfl, h.1.symm, h.2.symm⟩
    | cons z zs =>
      simp only [List.nil_append, List.cons_append, List.cons.injEq] at h
      have hmem : y ∈ ys := by rw [h.2]; simp
      rw [hys y hmem] at hy; cases hy
  | cons a as ih =>
    intro pre x y ys post h hxs hys hy
    cases pre with
    | nil =>
      simp only [List.nil_append, List.cons_append, List.cons.injEq] at h
      have := hxs a (by simp)
      rw [h.1, hy] at this; cases this
    | cons z zs =>
      simp only [List.cons_append, List.cons.injEq] at h
      obtain ⟨r1, r2, r3⟩ := ih zs x y ys post h.2
        (fun b hb => hxs b (List.mem_cons_of_mem _ hb)) hys hy
      exact ⟨by rw [h.1, r1], r2, r3⟩

theorem isTranscode_not_submit (e : Event) (h : e.isTranscode = true) :
    e.isSubmit = false ∧ e.isClose = false := by
  cases e <;> simp_all [Event.isTranscode, Event.isSubmit, Event.isClose]

/-- When the loop ends normally every unit the decoder delivered has been written. -/
theorem transcode_done_written (c : Config) (we : Nat → Bool) :
    ∀ (us : List InputUnit) (r : TestResult) (n : Nat), (transcode c we us r n).2 = false →
      (written (transcode c we us r n).1).length = (delivered us).length := by
  intro us
  induction us with
  | nil => intro r n _; rfl
  | cons u rest ih =>
    intro r n h
    cases u with
    | closer => rfl
    | malformed => simp [transcode] at h
    | object f =>
      simp only [transcode] at h ⊢
      split_ifs at h ⊢ with hw
      simp only [written, delivered, List.length_cons, ih _ _ h]

/-- Without a stray closer the decoder delivers the whole input. -/
theorem delivered_of_no_closer :
    ∀ (us : List InputUnit), InputUnit.closer ∉ us → delivered us = us := by
  intro us
  induction us with
  | nil => intro _; rfl
  | cons u rest ih =>
    intro h
    have hrest : InputUnit.closer ∉ rest := fun hm => h (List.mem_cons_of_mem _ hm)
    cases u with
    | closer => exact absurd (List.mem_cons_self _ _) h
    | malformed => simp only [delivered, ih hrest]
    | object f => simp only [delivered, ih hrest]

/-- The load stage submits nothing, or submits once, as its second operation, the URI
built from the bucket and the object it was given. -/
theorem load_submit (w : World) (c : Config) (object : String) :
    (∀ e ∈ (load w c object).trace, e.isSubmit = false) ∨
    ∃ ok post, (load w c object).trace = [Event.newWarehouseClient c.projectId true] ++
        Event.submitLoad (gcsURI c.testBucket object) c.dataset c.table ok :: post ∧
      ∀ e ∈ post, e.isSubmit = false ∧ e.isTranscode = false ∧ e.isClose = false ∧
        e.isNewWriter = false := by
  unfold load
  split_ifs
  · exact Or.inl (by simp [Event.isSubmit])
  · exact Or.inr ⟨false, [], rfl, by simp⟩
  · exact Or.inr ⟨true, [_], rfl,
      by simp [Event.isSubmit, Event.isTranscode, Event.isClose, Event.isNewWriter]⟩
  · exact Or.inr ⟨true, [_, _], rfl,
      by simp [Event.isSubmit, Event.isTranscode, Event.isClose, Event.isNewWriter]⟩
  · exact Or.inr ⟨true, [_, _, _, _], rfl,
      by simp [Event.isSubmit, Event.isTranscode, Event.isClose, Event.isNewWriter]⟩

theorem opened_not_submit (w : World) :
    ∀ x ∈ w.opened, x.isSubmit = false ∧ x.isClose = false ∧ x.isTranscode = false := by
  intro x hx
  simp only [World.opened, List.mem_cons, List.not_mem_nil, or_false] at hx
  rcases hx with rfl | rfl | rfl <;> exact ⟨rfl, rfl, rfl⟩

/-- A run submits no load, or its loop ended normally and its trace is: the opening
operations, the loop, the close of the sink, the creation of the warehouse client, the
one submission, and what follows it. -/
theorem main_submit (w : World) :
    (∀ e ∈ (main w).trace, e.isSubmit = false) ∨
    (w.loop.2 = false ∧ ∃ ok post,
      (main w).trace = (w.opened ++ w.loop.1 ++ [Event.closeWriter (!w.closeErr)] ++
          [Event.newWarehouseClient (readConfig w.environ).projectId true]) ++
        Event.submitLoad (gcsURI (readConfig w.environ).testBucket w.object)
          (readConfig w.environ).dataset (readConfig w.environ).table ok :: post ∧
      ∀ e ∈ post, e.isSubmit = false ∧ e.isTranscode = false ∧ e.isClose = false ∧
        e.isNewWriter = false) := by
  cases h1 : w.openErr with
  | true =>
    rw [main_openErr w h1]
    exact Or.inl (by simp [Event.isSubmit])
  | false =>
    cases h2 : w.storageClientErr with
    | true =>
      rw [main_storageClientErr w h1 h2]
      exact Or.inl (by simp [Event.isSubmit])
    | false =>
      cases h3 : w.loop.2 with
      | true =>
        rw [main_loopExit w h1 h2 h3]
        refine Or.inl ?_
        intro e he
        rcases List.mem_append.mp he with he | he
        · exact (opened_not_submit w e he).1
        · exact (isTranscode_not_submit e (transcode_isTranscode _ _ _ _ _ e he)).1
      | false =>
        rw [main_loopDone w h1 h2 h3]
        rcases load_submit w (readConfig w.environ) w.object with hno | ⟨ok, post, htr, hpost⟩
        · refine Or.inl ?_
          intro e he
          rcases List.mem_append.mp he with he | he
          · rcases List.mem_append.mp he with he | he
            · rcases List.mem_append.mp he with he | he
              · exact (opened_not_submit w e he).1
              · exact (isTranscode_not_submit e (transcode_isTranscode _ _ _ _ _ e he)).1
            · rw [List.mem_singleton.mp he]; rfl
          · exact hno e he
        · refine Or.inr ⟨rfl, ok, post, ?_, hpost⟩
          show _ ++ (load w (readConfig w.environ) w.object).trace = _
          rw [htr]
          simp only [List.append_assoc]

/-- The order of a run: the load is submitted at most once.  When it is submitted, the
operations before it are: the opening operations and the whole loop, which ended normally
after writing a record for every unit the decoder delivered (every unit of the input, when
the input holds no stray closing bracket); then the one close of the sink; then nothing
that transcodes or closes.  The URI submitted is gs://, the bucket, a slash and the object
name, for the one bucket and object the writer of the run was opened on; nothing is
transcoded, closed or submitted after it. -/
theorem load_once_after_loop_and_close (w : World) :
    ((main w).trace.filter Event.isSubmit).length ≤ 1 ∧
    ∀ (pre : List Event) (uri dataset table : String) (ok : Bool) (post : List Event),
      (main w).trace = pre ++ Event.submitLoad uri dataset table ok :: post →
        (∃ (a : List Event) (closeOk : Bool) (b : List Event),
          pre = a ++ Event.closeWriter closeOk :: b ∧
          (∀ e ∈ a, e.isClose = false ∧ e.reportsError = false) ∧
          (∀ e ∈ b, e.isClose = false ∧ e.isTranscode = false) ∧
          (written a).length = (delivered w.input).length ∧
          (InputUnit.closer ∉ w.input → (written a).length = w.input.length) ∧
          ∃ bucket object, Event.newWriter bucket object ∈ a ∧
            (∀ bucket2 object2, Event.newWriter bucket2 object2 ∈ (main w).trace →
              bucket2 = bucket ∧ object2 = object) ∧
            uri = "gs://" ++ bucket ++ "/" ++ object) ∧
        (∀ e ∈ post, e.isSubmit = false ∧ e.isTranscode = false ∧ e.isClose = false) := by
  rcases main_submit w with hno | ⟨hloop, ok0, post0, htr, hpost0⟩
  · refine ⟨?_, ?_⟩
    · have : (main w).trace.filter Event.isSubmit = [] := by
        rw [List.filter_eq_nil_iff]
        intro e he
        rw [hno e he]; decide
      rw [this]; decide
    · intro pre uri dataset table ok post hsplit
      have := hno (Event.submitLoad uri dataset table ok) (by rw [hsplit]; simp)
      cases this
  · have hA : ∀ e ∈ w.opened ++ w.loop.1 ++ [Event.closeWriter (!w.closeErr)] ++
        [Event.newWarehouseClient (readConfig w.environ).projectId true],
        e.isSubmit = false := by
      intro e he
      simp only [List.mem_append, List.mem_singleton] at he
      rcases he with ((he | he) | rfl) | rfl
      · exact (opened_not_submit w e he).1
      · exact (isTranscode_not_submit e (transcode_isTranscode _ _ _ _ _ e he)).1
      · rfl
      · rfl
    refine ⟨?_, ?_⟩
    · rw [htr, List.filter_append, List.filter_cons]
      have h1 : List.filter Event.isSubmit (w.opened ++ w.loop.1 ++
          [Event.closeWriter (!w.closeErr)] ++
          [Event.newWarehouseClient (readConfig w.environ).projectId true]) = [] := by
        rw [List.filter_eq_nil_iff]
        intro e he
        rw [hA e he]; decide
      have h2 : List.filter Event.isSubmit post0 = [] := by
        rw [List.filter_eq_nil_iff]
        intro e he
        rw [(hpost0 e he).1]; decide
      rw [h1, h2]
      simp [Event.isSubmit]
    · intro pre uri dataset table ok post hsplit
      rw [htr] at hsplit
      obtain ⟨r1, r2, r3⟩ := split_unique Event.isSubmit _ pre _ _ post0 post hsplit hA
        (fun e he => (hpost0 e he).1) rfl
      subst r3
      simp only [Event.submitLoad.injEq] at r2
      refine ⟨⟨w.opened ++ w.loop.1, !w.closeErr,
        [Event.newWarehouseClient (readConfig w.environ).projectId true], ?_, ?_, ?_, ?_, ?_,
        (readConfig w.environ).testBucket, w.object, ?_, ?_, ?_⟩,
        fun e he => ⟨(hpost0 e he).1, (hpost0 e he).2.1, (hpost0 e he).2.2.1⟩⟩
      · rw [r1]; simp only [List.append_assoc, List.singleton_append]
      · intro e he
        rcases List.mem_append.mp he with he | he
        · exact ⟨(opened_not_submit w e he).2.1, opened_ok w e he⟩
        · exact ⟨(isTranscode_not_submit e (transcode_isTranscode _ _ _ _ _ e he)).2,
            transcode_ok _ _ _ _ _ hloop e he⟩
      · intro e he
        rw [List.mem_singleton.mp he]
        exact ⟨rfl, rfl⟩
      · rw [written_append]
        have : written w.opened = [] := rfl
        rw [this, List.nil_append]
        exact transcode_done_written _ _ _ _ _ hloop
      · intro hclean
        rw [written_append]
        have : written w.opened = [] := rfl
        rw [this, List.nil_append]
        have hd := transcode_done_written _ _ _ _ _ hloop
        rw [delivered_of_no_closer w.input hclean] at hd
        exact hd
      · exact List.mem_append_left _ (by simp [World.opened])
      · intro b2 o2 hmem
        rw [htr] at hmem
        simp only [List.mem_append, List.mem_singleton, List.mem_cons, List.not_mem_nil,
          or_false, false_or, or_assoc] at hmem
        rcases hmem with hm | hm | hm | hm | hm
        · simp only [World.opened, List.mem_cons, List.not_mem_nil, or_false,
            Event.newWriter.injEq] at hm
          rcases hm with hm | hm | hm
          · cases hm
          · cases hm
          · exact hm
        · have := transcode_isTranscode _ _ _ _ _ _ hm
          cases this
        · cases hm
        · cases hm
        · rcases hm with hm | hm
          · cases hm
          · have := (hpost0 _ hm).2.2.2
            cases this
      · rw [r2.1]; rfl

/-- C6 (the run at the failing input): the input holds a record, a stray closing bracket
and a second record.  The loop ends at the bracket, the sink is closed and the load is
submitted, with status 0, when one record only has been written: the record after the
bracket is never transcoded. -/
theorem C6_load_submitted_with_input_left_unread :
    main (World.calm sampleEnviron
      [InputUnit.object { Action := some "pass", Package := some "pkg" }, InputUnit.closer,
       InputUnit.object { Action := some "fail", Package := some "pkg" }])
    = { status := 0
        trace := [Event.openInput "events.json" true, Event.newStorageClient true,
          Event.newWriter "bkt" "r/main/42-test-abc", Event.decode true,
          Event.write
            { Time := zeroTime, Action := "pass", Package := "pkg", Test := "", Elapsed := 0,
              Output := "", Repo := "r", Branch := "main", Commit := "abc", Run := "42",
              Stage := "test" } true,
          Event.closeWriter true, Event.newWarehouseClient "proj" true,
          Event.submitLoad "gs://bkt/r/main/42-test-abc" "ds" "tbl" true,
          Event.waitLoad true, Event.jobStatus true, Event.closeWarehouseClient,
          Event.closeInput] } ∧
    (written (main (World.calm sampleEnviron
      [InputUnit.object { Action := some "pass", Package := some "pkg" }, InputUnit.closer,
       InputUnit.object { Action := some "fail", Package := some "pkg" }])).trace).length = 1 := by
  decide

/-! ### The decode failure that is reached, and the close of the sink -/

theorem transcode_malformed (c : Config) (we : Nat → Bool) (hwe : ∀ n, we n = false)
    (rest : List InputUnit) :
    ∀ (fs : List Fields) (r : TestResult) (n : Nat),
      (transcode c we (fs.map InputUnit.object ++ InputUnit.malformed :: rest) r n).2 = true ∧
      (written (transcode c we
        (fs.map InputUnit.object ++ InputUnit.malformed :: rest) r n).1).length = fs.length := by
  intro fs
  induction fs with
  | nil => intro r n; simp [transcode, written]
  | cons g gs ih =>
    intro r n
    obtain ⟨h1, h2⟩ := ih (stamp c (decodeInto g r)) (n + 1)
    simp only [List.map_cons, List.cons_append, transcode, hwe, Bool.false_eq_true, if_false,
      written, List.length_cons]
    exact ⟨h1, congrArg (· + 1) h2⟩

/-- When the first unit that is not a record is one on which `Decode` is called and fails,
the run ends with status 1 after writing the records before it: nothing more is written,
the sink is not closed, no load is submitted. -/
theorem decode_failure_aborts (w : World) (fs : List Fields) (rest : List InputUnit)
    (hin : w.input = fs.map InputUnit.object ++ InputUnit.malformed :: rest)
    (hopen : w.openErr = false) (hclient : w.storageClientErr = false)
    (hsink : ∀ n, w.writeErr n = false) :
    (main w).status = 1 ∧ (written (main w).trace).length = fs.length ∧
    ∀ e ∈ (main w).trace, e.isSubmit = false ∧ e.isClose = false := by
  obtain ⟨h1, h2⟩ := transcode_malformed (readConfig w.environ) w.writeErr hsink rest fs
    TestResult.zero 0
  have hloop : w.loop = transcode (readConfig w.environ) w.writeErr
      (fs.map InputUnit.object ++ InputUnit.malformed :: rest) TestResult.zero 0 := by
    rw [World.loop, hin]
  rw [main_loopExit w hopen hclient (by rw [hloop]; exact h1)]
  refine ⟨rfl, ?_, ?_⟩
  · show (written (w.opened ++ w.loop.1)).length = fs.length
    rw [written_append, hloop]
    have : written w.opened = [] := rfl
    rw [this, List.nil_append]
    exact h2
  · intro e he
    rcases List.mem_append.mp he with he | he
    · exact ⟨(opened_not_submit w e he).1, (opened_not_submit w e he).2.1⟩
    · exact isTranscode_not_submit e (transcode_isTranscode _ _ _ _ _ e he)

theorem load_not_close (w : World) (c : Config) (object : String) :
    (load w c object).trace.filter Event.isClose = [] := by
  unfold load
  split_ifs <;> rfl

theorem filter_isClose_of_transcode (c : Config) (we : Nat → Bool) (us : List InputUnit)
    (r : TestResult) (n : Nat) : (transcode c we us r n).1.filter Event.isClose = [] := by
  rw [List.filter_eq_nil_iff]
  intro e he
  rw [(isTranscode_not_submit e (transcode_isTranscode c we us r n e he)).2]
  decide

/-- The sink is closed once when it was opened and the loop ended normally, and not at
all otherwise. -/
theorem closes_of_run (w : World) :
    (main w).trace.filter Event.isClose =
      if w.openErr = false ∧ w.storageClientErr = false ∧ w.loop.2 = false then
        [Event.closeWriter (!w.closeErr)]
      else [] := by
  cases h1 : w.openErr with
  | true => rw [main_openErr w h1]; simp [Event.isClose]
  | false =>
    cases h2 : w.storageClientErr with
    | true => rw [main_storageClientErr w h1 h2]; simp [Event.isClose]
    | false =>
      have hop : w.opened.filter Event.isClose = [] := rfl
      have hlp : w.loop.1.filter Event.isClose = [] := filter_isClose_of_transcode _ _ _ _ _
      cases h3 : w.loop.2 with
      | true =>
        rw [main_loopExit w h1 h2 h3]
        simp [List.filter_append, hop, hlp]
      | false =>
        rw [main_loopDone w h1 h2 h3]
        simp [List.filter_append, hop, hlp, load_not_close, Event.isClose]


/-! ### The name of the staging object -/

theorem load_not_newWriter (w : World) (c : Config) (object : String) :
    ∀ e ∈ (load w c object).trace, e.isNewWriter = false := by
  unfold load
  split_ifs <;> simp [Event.isNewWriter]

/-- C7 (amended): whatever the input and whichever operations fail, the object a run
opens its writer on is named from the provenance tuple alone: repository, a slash, branch,
a slash, then run, stage and commit joined by hyphens. -/
theorem C7_object_name_from_tuple (w : World) (bucket object : String)
    (h : Event.newWriter bucket object ∈ (main w).trace) :
    object = Getenv w.environ "CIRCLE_REPOSITORY_URL" ++ "/" ++
      Getenv w.environ "CIRCLE_BRANCH" ++ "/" ++ Getenv w.environ "CIRCLE_BUILD_NUM" ++ "-" ++
      Getenv w.environ "CIRCLE_STAGE" ++ "-" ++ Getenv w.environ "CIRCLE_SHA1" := by
  have hopened : Event.newWriter bucket object ∈ w.opened →
      object = Getenv w.environ "CIRCLE_REPOSITORY_URL" ++ "/" ++
        Getenv w.environ "CIRCLE_BRANCH" ++ "/" ++ Getenv w.environ "CIRCLE_BUILD_NUM" ++
        "-" ++ Getenv w.environ "CIRCLE_STAGE" ++ "-" ++ Getenv w.environ "CIRCLE_SHA1" := by
    intro hm
    simp only [World.opened, List.mem_cons, List.not_mem_nil, or_false, Event.newWriter.injEq,
      reduceCtorEq, false_or] at hm
    rw [hm.2]; rfl
  have hloop : Event.newWriter bucket object ∉ w.loop.1 := by
    intro hm
    have := transcode_isTranscode _ _ _ _ _ _ hm
    cases this
  cases h1 : w.openErr with
  | true =>
    rw [main_openErr w h1] at h
    simp at h
  | false =>
    cases h2 : w.storageClientErr with
    | true =>
      rw [main_storageClientErr w h1 h2] at h
      simp at h
    | false =>
      cases h3 : w.loop.2 with
      | true =>
        rw [main_loopExit w h1 h2 h3] at h
        rcases List.mem_append.mp h with hm | hm
        · exact hopened hm
        · exact absurd hm hloop
      | false =>
        rw [main_loopDone w h1 h2 h3] at h
        rcases List.mem_append.mp h with hm | hm
        · rcases List.mem_append.mp hm with hm | hm
          · rcases List.mem_append.mp hm with hm | hm
            · exact hopened hm
            · exact absurd hm hloop
          · simp at hm
        · have := load_not_newWriter w _ _ _ hm
          cases this

/-- Witness of C7: the run of the sample environment on an empty input. -/
theorem C7_object_name_from_tuple_witness :
    Event.newWriter "bkt" "r/main/42-test-abc" ∈ (main (World.calm sampleEnviron [])).trace ∧
    "r/main/42-test-abc" = Getenv sampleEnviron "CIRCLE_REPOSITORY_URL" ++ "/" ++
      Getenv sampleEnviron "CIRCLE_BRANCH" ++ "/" ++ Getenv sampleEnviron "CIRCLE_BUILD_NUM" ++
      "-" ++ Getenv sampleEnviron "CIRCLE_STAGE" ++ "-" ++ Getenv sampleEnviron "CIRCLE_SHA1" :=
  ⟨by decide, C7_object_name_from_tuple (World.calm sampleEnviron []) "bkt"
    "r/main/42-test-abc" (by decide)⟩

/-! ### The configuration is never examined -/

set_option maxRecDepth 10000 in
/-- C9: the input of one record with Action pass, Package pkg and Elapsed 0.5, under the
provenance r, main, 42, abc, test, is transcoded into exactly one line: the eleven fields
in the order of the declaration, Time the zero timestamp, Test and Output empty.  The two
hypotheses are the conversions of the number 0.5 by `strconv`. -/
theorem C9_end_to_end_scenario (lv : Leaves) (hparse : lv.parseFloat "0.5" = some (1 / 2))
    (hformat : lv.formatFloat (1 / 2) = "0.5") :
    outputText lv (main (World.calm sampleEnviron (readInput lv scenarioInput))).trace
      = scenarioOutput := by
  have hscan : scanUnits (scenarioInput.length + 1) scenarioInput.data
      = [RawUnit.members [("Action", JVal.str "pass"), ("Package", JVal.str "pkg"),
          ("Elapsed", JVal.num "0.5")]] := by
    decide
  have k1 : fieldOf "Action" = some FieldName.Action := by decide
  have k2 : fieldOf "Package" = some FieldName.Package := by decide
  have k3 : fieldOf "Elapsed" = some FieldName.Elapsed := by decide
  have hin : readInput lv scenarioInput = [InputUnit.object scenarioFields] := by
    rw [readInput, hscan]
    simp only [List.map_cons, List.map_nil, toUnit, toFields, k1, k2, k3, store, hparse,
      Option.map_some', scenarioFields]
  have hrun : written (main (World.calm sampleEnviron
      [InputUnit.object scenarioFields])).trace
      = [{ Time := zeroTime, Action := "pass", Package := "pkg", Test := "", Elapsed := 1 / 2,
           Output := "", Repo := "r", Branch := "main", Commit := "abc", Run := "42",
           Stage := "test" }] := by
    rfl
  rw [hin, outputText, hrun]
  simp only [List.map_cons, List.map_nil, encode, hformat]
  decide

/-- Witness of C9: the conversion of decimals reads 0.5 as one half and writes it back. -/
theorem C9_end_to_end_scenario_witness :
    outputText decimalLeaves
      (main (World.calm sampleEnviron (readInput decimalLeaves scenarioInput))).trace
      = scenarioOutput :=
  C9_end_to_end_scenario decimalLeaves
    (by simp [decimalLeaves, parseDecimal, takeDigits, digitsValue, isDigit]; norm_num)
    (by
      have h1 : ((1 : ℚ) / 2).num = 1 := by norm_num
      have h2 : ((1 : ℚ) / 2).den = 2 := by norm_num
      simp only [decimalLeaves, formatDecimal, h1, h2]
      decide)

end TestStat
